import Mathlib

/-
Verification of the state/cache layer and invite-attribution detector of the
vekamj repository, shallowly embedded from src/app/database/redis.py and
src/app/cogs/welcome.py.

Conventions of the embedding:
- time.time() is passed explicitly as an integer argument `now`;
- the Python dict self._memory_store becomes an insertion-ordered association
  list with Python dict update semantics (replace in place, else append);
- an exception crossing a function boundary becomes Except.error ();
- the remote redis client is an abstract RemoteBackend record whose methods
  may return a value or raise.
-/

namespace Veka

/-- Association-list lookup with Python dict .get semantics. -/
def alistGet {α : Type} : List (String × α) → String → Option α
  | [], _ => none
  | (k', v) :: rest, k => if k' = k then some v else alistGet rest k

/-- Association-list update with Python dict assignment semantics:
replace in place if present, else append at the end. -/
def alistSet {α : Type} : List (String × α) → String → α → List (String × α)
  | [], k, v => [(k, v)]
  | (k', v') :: rest, k, v =>
      if k' = k then (k, v) :: rest else (k', v') :: alistSet rest k v

/-- Association-list deletion, Python `del d[k]` / `d.pop(k, None)`. -/
def alistDel {α : Type} : List (String × α) → String → List (String × α)
  | [], _ => []
  | (k', v') :: rest, k =>
      if k' = k then alistDel rest k else (k', v') :: alistDel rest k

/-- One value of the in-memory fallback map of RedisManager:
the dict literal with keys value and expire built in RedisManager.set. -/
structure Entry where
  value : String
  expire : Option Int
deriving Repr, DecidableEq

/-- The fallback map self._memory_store. -/
abbrev Store := List (String × Entry)

/-- The Python truthiness test `data['expire'] and time.time() > data['expire']`
used by RedisManager.get and RedisManager.exists: an entry counts as expired
when its expire field is set, nonzero (falsy 0 disables the check, exactly as
in the source), and strictly in the past. -/
def isExpired (now : Int) : Option Int → Bool
  | none => false
  | some v => if v = 0 then false else decide (now > v)

/-- The expiry timestamp stored by RedisManager.set in fallback mode:
`time.time() + expire if expire else None`, so None and 0 both mean
no expiration. -/
def expireAt (now : Int) : Option Int → Option Int
  | none => none
  | some e => if e = 0 then none else some (now + e)

/-- Fallback branch of RedisManager.set (redis.py lines 60-65). -/
def fbSet (now : Int) (s : Store) (key value : String) (expire : Option Int) : Store :=
  alistSet s key ⟨value, expireAt now expire⟩

/-- Fallback branch of RedisManager.get (redis.py lines 72-80):
lazy expiration deletes an expired entry and returns None. -/
def fbGet (now : Int) (s : Store) (key : String) : Option String × Store :=
  match alistGet s key with
  | none => (none, s)
  | some data =>
      if isExpired now data.expire then (none, alistDel s key)
      else (some data.value, s)

/-- Fallback branch of RedisManager.delete (redis.py line 88). -/
def fbDelete (s : Store) (key : String) : Store :=
  alistDel s key

/-- Fallback branch of RedisManager.exists (redis.py lines 95-101):
deletes an expired entry and reports False, else reports membership. -/
def fbEx (now : Int) (s : Store) (key : String) : Bool × Store :=
  match alistGet s key with
  | none => (false, s)
  | some data =>
      if isExpired now data.expire then (false, alistDel s key)
      else (true, s)

/-- Digits-only accumulator for pyInt. -/
def digitsToNat : List Char → Nat → Option Nat
  | [], acc => some acc
  | c :: cs, acc =>
      if c.isDigit then digitsToNat cs (acc * 10 + (c.toNat - 48)) else none

/-- Python int(str) on the decimal strings this module stores; none models the
ValueError raised on a non-numeric string. -/
def pyInt (s : String) : Option Int :=
  match s.data with
  | [] => none
  | '-' :: rest =>
      match rest with
      | [] => none
      | _ => (digitsToNat rest 0).map (fun n => -(n : Int))
  | l => (digitsToNat l 0).map (fun n => (n : Int))

/-- Fallback branch of RedisManager.increment (redis.py lines 109-116):
reads the raw map entry with default value "0", parses, adds one, writes back
keeping the old expire field. Note that unlike get and exists it performs no
expiration check at all. -/
def fbIncrement (s : Store) (key : String) : Option (Int × Store) :=
  let data := (alistGet s key).getD ⟨"0", none⟩
  match pyInt data.value with
  | none => none
  | some v => some (v + 1, alistSet s key ⟨toString (v + 1), data.expire⟩)

/-- State of a RedisManager instance: the availability flag, the configured
key namespace string (config.database.redis.prefix) and the fallback map. -/
structure RedisState where
  available : Bool
  pfx : String
  store : Store
deriving Repr, DecidableEq

/-- Abstract model of the remote redis client: each method either returns a
value or raises. -/
structure RemoteBackend where
  rset : String → String → Option Int → Except Unit Unit
  rget : String → Except Unit (Option String)
  rdel : String → Except Unit Unit
  rex : String → Except Unit Bool
  rincr : String → Except Unit Int

/-- A remote backend whose every call raises. -/
def rbFail : RemoteBackend :=
  ⟨fun _ _ _ => .error (), fun _ => .error (), fun _ => .error (),
   fun _ => .error (), fun _ => .error ()⟩

/-- A remote backend whose every call succeeds with a benign result. -/
def rbOk : RemoteBackend :=
  ⟨fun _ _ _ => .ok (), fun _ => .ok none, fun _ => .ok (),
   fun _ => .ok false, fun _ => .ok 0⟩

/-- RedisManager._key: namespace the logical key. -/
def rmKey (st : RedisState) (key : String) : String :=
  st.pfx ++ key

/-- RedisManager.set (redis.py lines 55-65): remote when available, else the
fallback map; a remote exception propagates. -/
def rmSet (rb : RemoteBackend) (now : Int) (st : RedisState)
    (key value : String) (expire : Option Int) : Except Unit RedisState :=
  let k := rmKey st key
  if st.available then
    match rb.rset k value expire with
    | .ok _ => .ok st
    | .error e => .error e
  else
    .ok { st with store := fbSet now st.store k value expire }

/-- RedisManager.get (redis.py lines 67-80). -/
def rmGet (rb : RemoteBackend) (now : Int) (st : RedisState)
    (key : String) : Except Unit (Option String × RedisState) :=
  let k := rmKey st key
  if st.available then
    match rb.rget k with
    | .ok v => .ok (v, st)
    | .error e => .error e
  else
    let p := fbGet now st.store k
    .ok (p.1, { st with store := p.2 })

/-- RedisManager.delete (redis.py lines 82-88). -/
def rmDelete (rb : RemoteBackend) (st : RedisState)
    (key : String) : Except Unit RedisState :=
  let k := rmKey st key
  if st.available then
    match rb.rdel k with
    | .ok _ => .ok st
    | .error e => .error e
  else
    .ok { st with store := fbDelete st.store k }

/-- RedisManager.exists (redis.py lines 90-101). -/
def rmEx (rb : RemoteBackend) (now : Int) (st : RedisState)
    (key : String) : Except Unit (Bool × RedisState) :=
  let k := rmKey st key
  if st.available then
    match rb.rex k with
    | .ok b => .ok (b, st)
    | .error e => .error e
  else
    let p := fbEx now st.store k
    .ok (p.1, { st with store := p.2 })

/-- RedisManager.increment (redis.py lines 103-116); now is accepted for
interface uniformity but, like the source, the fallback path ignores it. -/
def rmIncrement (rb : RemoteBackend) (now : Int) (st : RedisState)
    (key : String) : Except Unit (Int × RedisState) :=
  let _ := now
  let k := rmKey st key
  if st.available then
    match rb.rincr k with
    | .ok v => .ok (v, st)
    | .error e => .error e
  else
    match fbIncrement st.store k with
    | none => .error ()
    | some (v, s') => .ok (v, { st with store := s' })

/-- The f-string of RedisManager.check_cooldown (redis.py line 120). -/
def cooldownKey (userId : Int) (command : String) : String :=
  "cooldown:" ++ toString userId ++ ":" ++ command

/-- RedisManager.check_cooldown (redis.py lines 118-124): exists, then set
with TTL, with a suspension point between the two. -/
def checkCooldown (rb : RemoteBackend) (now : Int) (st : RedisState)
    (userId : Int) (command : String) (cooldown : Int) :
    Except Unit (Bool × RedisState) :=
  let key := cooldownKey userId command
  match rmEx rb now st key with
  | .error e => .error e
  | .ok (true, st1) => .ok (false, st1)
  | .ok (false, st1) =>
      match rmSet rb now st1 key "1" (some cooldown) with
      | .error e => .error e
      | .ok st2 => .ok (true, st2)

/-- Outcome of the try-block of RedisManager.connect (redis.py lines 27-36):
redis.from_url may raise, the ping probe may raise, or both succeed. -/
inductive ConnectOutcome where
  | fromUrlRaises
  | pingRaises
  | success
deriving Repr, DecidableEq

/-- The try-block body of RedisManager.connect. -/
def connectTry (o : ConnectOutcome) (st : RedisState) : Except Unit RedisState :=
  match o with
  | .fromUrlRaises => .error ()
  | .pingRaises => .error ()
  | .success => .ok { st with available := true }

/-- RedisManager.connect (redis.py lines 25-42): the except-branch catches
every exception, records unavailability and warns; the function is total. -/
def connect (o : ConnectOutcome) (st : RedisState) : RedisState :=
  match connectTry o st with
  | .ok st' => st'
  | .error _ => { st with available := false }

/-- One data operation of the gateway contract. -/
inductive CacheOp where
  | opSet (key value : String) (expire : Option Int)
  | opGet (key : String)
  | opDel (key : String)
  | opEx (key : String)
  | opIncr (key : String)
deriving Repr, DecidableEq

/-- The observable result of one data operation. -/
inductive OpResult where
  | ack
  | value (v : Option String)
  | flag (b : Bool)
  | count (n : Int)
deriving Repr, DecidableEq

/-- Dispatch one timestamped operation through the gateway. -/
def runOp (rb : RemoteBackend) (st : RedisState) :
    Int × CacheOp → Except Unit (OpResult × RedisState)
  | (now, .opSet k v e) =>
      match rmSet rb now st k v e with
      | .ok st' => .ok (.ack, st')
      | .error err => .error err
  | (now, .opGet k) =>
      match rmGet rb now st k with
      | .ok p => .ok (.value p.1, p.2)
      | .error err => .error err
  | (_, .opDel k) =>
      match rmDelete rb st k with
      | .ok st' => .ok (.ack, st')
      | .error err => .error err
  | (now, .opEx k) =>
      match rmEx rb now st k with
      | .ok p => .ok (.flag p.1, p.2)
      | .error err => .error err
  | (now, .opIncr k) =>
      match rmIncrement rb now st k with
      | .ok p => .ok (.count p.1, p.2)
      | .error err => .error err

/-- Run a sequence of timestamped operations, collecting results; the first
propagated exception aborts the run. -/
def runOps (rb : RemoteBackend) :
    RedisState → List (Int × CacheOp) → Except Unit (List OpResult × RedisState)
  | st, [] => .ok ([], st)
  | st, op :: rest =>
      match runOp rb st op with
      | .error e => .error e
      | .ok (r, st') =>
          match runOps rb st' rest with
          | .error e => .error e
          | .ok (rs, st'') => .ok (r :: rs, st'')

/-- Progress of one in-flight check_cooldown call in fallback mode, split at
its await suspension points: before the exists call, between exists and set,
and finished with its return value. -/
inductive CdPhase where
  | ready
  | passedCheck
  | done (result : Bool)
deriving Repr, DecidableEq

/-- One atomic step of a fallback-mode check_cooldown call on the (already
namespaced) cooldown key: the exists probe, then the unconditional set. -/
def cdStep (now cd : Int) (key : String) : CdPhase × Store → CdPhase × Store
  | (.ready, s) =>
      let p := fbEx now s key
      if p.1 then (.done false, p.2) else (.passedCheck, p.2)
  | (.passedCheck, s) => (.done true, fbSet now s key "1" (some cd))
  | (.done r, s) => (.done r, s)

/-- Interleave two check_cooldown calls A and B on the same key under a
schedule: true picks a step of A, false a step of B. -/
def runSched (now cd : Int) (key : String) :
    List Bool → CdPhase × CdPhase × Store → CdPhase × CdPhase × Store
  | [], st => st
  | tid :: rest, (pa, pb, s) =>
      if tid then
        let q := cdStep now cd key (pa, s)
        runSched now cd key rest (q.1, pb, q.2)
      else
        let q := cdStep now cd key (pb, s)
        runSched now cd key rest (pa, q.1, q.2)

/-- The loop of Welcome._get_used_invite (welcome.py lines 66-73): scan the
fetched invite list in iteration order and return the first invite that is
present in the cached snapshot with a strictly larger use count. -/
def findUsedInvite (cached : List (String × Nat)) :
    List (String × Nat) → Option (String × Nat)
  | [] => none
  | (code, uses) :: rest =>
      match alistGet cached code with
      | some cuses =>
          if uses > cuses then some (code, uses) else findUsedInvite cached rest
      | none => findUsedInvite cached rest

/-- Welcome._get_used_invite (welcome.py lines 56-76) for a guild whose fetch
succeeded: returns the attributed invite, if any, together with the snapshot
stored for the guild afterwards (the code overwrites the snapshot only on the
branch that found an invite). -/
def getUsedInvite (cached current : List (String × Nat)) :
    Option (String × Nat) × List (String × Nat) :=
  match findUsedInvite cached current with
  | some inv => (some inv, current)
  | none => (none, cached)

/-- Modelled from the spec: the attribution candidates, each invite of the
fetched list present in the snapshot with a positive use-count delta, paired
with its delta. -/
def candidates (cached current : List (String × Nat)) : List (String × Nat) :=
  current.filterMap fun p =>
    match alistGet cached p.1 with
    | some cu => if cu < p.2 then some (p.1, p.2 - cu) else none
    | none => none

/-- Modelled from the spec: choose the candidate with the largest delta,
breaking ties by lexicographically smallest code. -/
def pickBest : List (String × Nat) → Option (String × Nat)
  | [] => none
  | c :: rest =>
      match pickBest rest with
      | none => some c
      | some b =>
          if c.2 > b.2 then some c
          else if c.2 = b.2 ∧ c.1 < b.1 then some c
          else some b

/-- Modelled from the spec: the attribution rule as the specification words
it (largest positive delta, then lexicographically smallest code). -/
def specAttribution (cached current : List (String × Nat)) : Option String :=
  (pickBest (candidates cached current)).map Prod.fst

/-- The spec-side notion of an unexpired cooldown mark being present. -/
def hasUnexpiredMark (now : Int) (s : Store) (key : String) : Bool :=
  match alistGet s key with
  | some e => !(isExpired now e.expire)
  | none => false

theorem alistGet_alistSet_self {α : Type} (s : List (String × α)) (k : String) (v : α) :
    alistGet (alistSet s k v) k = some v := by
  induction s with
  | nil => simp [alistSet, alistGet]
  | cons p rest ih =>
      obtain ⟨k', v'⟩ := p
      by_cases h : k' = k
      · simp [alistSet, alistGet, h]
      · simp [alistSet, alistGet, h, ih]

theorem alistGet_alistDel_self {α : Type} (s : List (String × α)) (k : String) :
    alistGet (alistDel s k) k = none := by
  induction s with
  | nil => rfl
  | cons p rest ih =>
      obtain ⟨k', v'⟩ := p
      by_cases h : k' = k
      · simp [alistDel, h, ih]
      · simp [alistDel, alistGet, h, ih]

theorem checkCooldown_fb_absent (rb : RemoteBackend) (now : Int) (st : RedisState)
    (uid : Int) (cmd : String) (cd : Int) (hav : st.available = false)
    (halist : alistGet st.store (st.pfx ++ cooldownKey uid cmd) = none) :
    checkCooldown rb now st uid cmd cd =
      Except.ok (true,
        ⟨false, st.pfx,
         alistSet st.store (st.pfx ++ cooldownKey uid cmd)
           ⟨"1", expireAt now (some cd)⟩⟩) := by
  obtain ⟨av, px, sto⟩ := st
  change av = false at hav
  subst hav
  change alistGet sto (px ++ cooldownKey uid cmd) = none at halist
  simp [checkCooldown, rmEx, rmSet, rmKey, fbEx, fbSet, halist]

theorem checkCooldown_fb_expired (rb : RemoteBackend) (now : Int) (st : RedisState)
    (uid : Int) (cmd : String) (cd : Int) (e : Entry) (hav : st.available = false)
    (halist : alistGet st.store (st.pfx ++ cooldownKey uid cmd) = some e)
    (hexp : isExpired now e.expire = true) :
    checkCooldown rb now st uid cmd cd =
      Except.ok (true,
        ⟨false, st.pfx,
         alistSet (alistDel st.store (st.pfx ++ cooldownKey uid cmd))
           (st.pfx ++ cooldownKey uid cmd) ⟨"1", expireAt now (some cd)⟩⟩) := by
  obtain ⟨av, px, sto⟩ := st
  change av = false at hav
  subst hav
  change alistGet sto (px ++ cooldownKey uid cmd) = some e at halist
  simp [checkCooldown, rmEx, rmSet, rmKey, fbEx, fbSet, halist, hexp]

theorem checkCooldown_fb_live (rb : RemoteBackend) (now : Int) (st : RedisState)
    (uid : Int) (cmd : String) (cd : Int) (e : Entry) (hav : st.available = false)
    (halist : alistGet st.store (st.pfx ++ cooldownKey uid cmd) = some e)
    (hexp : isExpired now e.expire = false) :
    checkCooldown rb now st uid cmd cd = Except.ok (false, st) := by
  obtain ⟨av, px, sto⟩ := st
  change av = false at hav
  subst hav
  change alistGet sto (px ++ cooldownKey uid cmd) = some e at halist
  simp [checkCooldown, rmEx, rmKey, fbEx, halist, hexp]

theorem cdStep_pair_checkCooldown (rb : RemoteBackend) (now : Int) (st : RedisState)
    (uid : Int) (cmd : String) (cd : Int) (hav : st.available = false) :
    ∃ b s2,
      cdStep now cd (st.pfx ++ cooldownKey uid cmd)
        (cdStep now cd (st.pfx ++ cooldownKey uid cmd) (CdPhase.ready, st.store)) =
        (CdPhase.done b, s2) ∧
      checkCooldown rb now st uid cmd cd = Except.ok (b, ⟨false, st.pfx, s2⟩) := by
  obtain ⟨av, px, sto⟩ := st
  change av = false at hav
  subst hav
  rcases hget : alistGet sto (px ++ cooldownKey uid cmd) with _ | e
  · refine ⟨true, alistSet sto (px ++ cooldownKey uid cmd) ⟨"1", expireAt now (some cd)⟩,
      ?_, ?_⟩
    · simp [cdStep, fbEx, fbSet, hget]
    · simp [checkCooldown, rmEx, rmSet, rmKey, fbEx, fbSet, hget]
  · cases hexp : isExpired now e.expire
    · refine ⟨false, sto, ?_, ?_⟩
      · simp [cdStep, fbEx, hget, hexp]
      · simp [checkCooldown, rmEx, rmKey, fbEx, hget, hexp]
    · refine ⟨true,
        alistSet (alistDel sto (px ++ cooldownKey uid cmd)) (px ++ cooldownKey uid cmd)
          ⟨"1", expireAt now (some cd)⟩, ?_, ?_⟩
      · simp [cdStep, fbEx, fbSet, hget, hexp]
      · simp [checkCooldown, rmEx, rmSet, rmKey, fbEx, fbSet, hget, hexp]

/-- Claim C2: in fallback mode the cooldown gate (check_cooldown), on the key
built by cooldownKey under the configured namespace, returns false when an
unexpired mark exists at check time, and otherwise returns true having stored
the mark with expiry now + window, i.e. with TTL equal to the window. -/
theorem cooldown_gate_contract (rb : RemoteBackend) (now : Int) (st : RedisState)
    (uid : Int) (cmd : String) (cd : Int)
    (hav : st.available = false) (hcd : 0 < cd) :
    (hasUnexpiredMark now st.store (st.pfx ++ cooldownKey uid cmd) = true →
      checkCooldown rb now st uid cmd cd = Except.ok (false, st)) ∧
    (hasUnexpiredMark now st.store (st.pfx ++ cooldownKey uid cmd) = false →
      ∃ st1, checkCooldown rb now st uid cmd cd = Except.ok (true, st1) ∧
        alistGet st1.store (st.pfx ++ cooldownKey uid cmd) =
          some ⟨"1", some (now + cd)⟩) := by
  have hcd0 : cd ≠ 0 := by omega
  have hea : expireAt now (some cd) = some (now + cd) := by simp [expireAt, hcd0]
  constructor
  · intro hmark
    rcases hget : alistGet st.store (st.pfx ++ cooldownKey uid cmd) with _ | e
    · simp [hasUnexpiredMark, hget] at hmark
    · cases hexp : isExpired now e.expire
      · exact checkCooldown_fb_live rb now st uid cmd cd e hav hget hexp
      · simp [hasUnexpiredMark, hget, hexp] at hmark
  · intro hmark
    rcases hget : alistGet st.store (st.pfx ++ cooldownKey uid cmd) with _ | e
    · refine ⟨_, checkCooldown_fb_absent rb now st uid cmd cd hav hget, ?_⟩
      rw [← hea]
      exact alistGet_alistSet_self st.store (st.pfx ++ cooldownKey uid cmd)
        ⟨"1", expireAt now (some cd)⟩
    · cases hexp : isExpired now e.expire
      · simp [hasUnexpiredMark, hget, hexp] at hmark
      · refine ⟨_, checkCooldown_fb_expired rb now st uid cmd cd e hav hget hexp, ?_⟩
        rw [← hea]
        exact alistGet_alistSet_self (alistDel st.store (st.pfx ++ cooldownKey uid cmd))
          (st.pfx ++ cooldownKey uid cmd) ⟨"1", expireAt now (some cd)⟩

theorem cooldown_gate_contract_witness :
    ∃ st1, checkCooldown rbFail 100 ⟨false, "veka:", []⟩ 1 "ping" 5 =
        Except.ok (true, st1) ∧
      alistGet st1.store ("veka:" ++ cooldownKey 1 "ping") = some ⟨"1", some 105⟩ :=
  (cooldown_gate_contract rbFail 100 ⟨false, "veka:", []⟩ 1 "ping" 5 rfl
    (by decide)).2 rfl

/-- Claim C10: in fallback mode a denied cooldown check returns the state it
was given, byte for byte: the mark it found is not refreshed and no other key
is touched. -/
theorem cooldown_denied_is_readonly (rb : RemoteBackend) (now : Int) (st : RedisState)
    (uid : Int) (cmd : String) (cd : Int) (st1 : RedisState)
    (hav : st.available = false)
    (h : checkCooldown rb now st uid cmd cd = Except.ok (false, st1)) :
    st1 = st := by
  rcases hget : alistGet st.store (st.pfx ++ cooldownKey uid cmd) with _ | e
  · rw [checkCooldown_fb_absent rb now st uid cmd cd hav hget] at h
    simp at h
  · cases hexp : isExpired now e.expire
    · rw [checkCooldown_fb_live rb now st uid cmd cd e hav hget hexp] at h
      simp at h
      exact h.symm
    · rw [checkCooldown_fb_expired rb now st uid cmd cd e hav hget hexp] at h
      simp at h

theorem cooldown_denied_is_readonly_witness :
    (⟨false, "", [("cooldown:1:x", ⟨"1", some 50⟩)]⟩ : RedisState) =
      ⟨false, "", [("cooldown:1:x", ⟨"1", some 50⟩)]⟩ :=
  cooldown_denied_is_readonly rbFail 10
    ⟨false, "", [("cooldown:1:x", ⟨"1", some 50⟩)]⟩ 1 "x" 5
    ⟨false, "", [("cooldown:1:x", ⟨"1", some 50⟩)]⟩ rfl rfl

/-- Claim C3 counterexample: check_cooldown is the naive check-then-set with a
suspension point between the exists probe and the set (cdStep is its split
into those two atomic steps; cdStep_pair_checkCooldown relates the two).
Interleaving two calls on the same fresh key as A-probe, B-probe, A-set,
B-set makes both calls return true, so among concurrent overlapping calls
more than one can succeed, contrary to the claim. -/
theorem cooldown_race_both_true :
    runSched 0 10 "veka:cooldown:1:ping" [true, false, true, false]
        (CdPhase.ready, CdPhase.ready, []) =
      (CdPhase.done true, CdPhase.done true,
       [("veka:cooldown:1:ping", ⟨"1", some 10⟩)]) := rfl

/-- Claim C3 amended: the implementation takes neither of the two strategies
the claim names (no per-key critical section, no atomic set-if-not-exists);
overlapping calls can both return true. Only non-overlapping calls are
exclusive: once a call has returned true, any later call that starts before
the stored window expires returns false and leaves the state unchanged. -/
theorem cooldown_sequential_exclusive (rb : RemoteBackend) (now now2 : Int)
    (st st1 : RedisState) (uid : Int) (cmd : String) (cd : Int)
    (hav : st.available = false) (hcd : 0 < cd) (h2 : now2 ≤ now + cd)
    (hfirst : checkCooldown rb now st uid cmd cd = Except.ok (true, st1)) :
    checkCooldown rb now2 st1 uid cmd cd = Except.ok (false, st1) := by
  have hcd0 : cd ≠ 0 := by omega
  have hea : expireAt now (some cd) = some (now + cd) := by simp [expireAt, hcd0]
  have hie : isExpired now2 (some (now + cd)) = false := by
    have hle : ¬ (now2 > now + cd) := by omega
    simp [isExpired, hle]
  rcases hget : alistGet st.store (st.pfx ++ cooldownKey uid cmd) with _ | e
  · rw [checkCooldown_fb_absent rb now st uid cmd cd hav hget] at hfirst
    simp at hfirst
    subst hfirst
    refine checkCooldown_fb_live rb now2 _ uid cmd cd ⟨"1", some (now + cd)⟩ rfl ?_ hie
    rw [← hea]
    exact alistGet_alistSet_self st.store (st.pfx ++ cooldownKey uid cmd)
      ⟨"1", expireAt now (some cd)⟩
  · cases hexp : isExpired now e.expire
    · rw [checkCooldown_fb_live rb now st uid cmd cd e hav hget hexp] at hfirst
      simp at hfirst
    · rw [checkCooldown_fb_expired rb now st uid cmd cd e hav hget hexp] at hfirst
      simp at hfirst
      subst hfirst
      refine checkCooldown_fb_live rb now2 _ uid cmd cd ⟨"1", some (now + cd)⟩ rfl ?_ hie
      rw [← hea]
      exact alistGet_alistSet_self (alistDel st.store (st.pfx ++ cooldownKey uid cmd))
        (st.pfx ++ cooldownKey uid cmd) ⟨"1", expireAt now (some cd)⟩

theorem cooldown_sequential_exclusive_witness :
    checkCooldown rbFail 102
        ⟨false, "veka:", [("veka:cooldown:1:ping", ⟨"1", some 105⟩)]⟩ 1 "ping" 5 =
      Except.ok (false,
        ⟨false, "veka:", [("veka:cooldown:1:ping", ⟨"1", some 105⟩)]⟩) :=
  cooldown_sequential_exclusive rbFail 100 102 ⟨false, "veka:", []⟩
    ⟨false, "veka:", [("veka:cooldown:1:ping", ⟨"1", some 105⟩)]⟩ 1 "ping" 5
    rfl (by decide) (by decide) rfl

theorem rmGet_expired (rb : RemoteBackend) (now : Int) (st : RedisState)
    (key : String) (e : Entry) (hav : st.available = false)
    (hget : alistGet st.store (st.pfx ++ key) = some e)
    (hexp : isExpired now e.expire = true) :
    rmGet rb now st key =
      Except.ok (none, ⟨false, st.pfx, alistDel st.store (st.pfx ++ key)⟩) := by
  obtain ⟨av, px, sto⟩ := st
  change av = false at hav
  subst hav
  change alistGet sto (px ++ key) = some e at hget
  simp [rmGet, rmKey, fbGet, hget, hexp]

theorem rmEx_expired (rb : RemoteBackend) (now : Int) (st : RedisState)
    (key : String) (e : Entry) (hav : st.available = false)
    (hget : alistGet st.store (st.pfx ++ key) = some e)
    (hexp : isExpired now e.expire = true) :
    rmEx rb now st key =
      Except.ok (false, ⟨false, st.pfx, alistDel st.store (st.pfx ++ key)⟩) := by
  obtain ⟨av, px, sto⟩ := st
  change av = false at hav
  subst hav
  change alistGet sto (px ++ key) = some e at hget
  simp [rmEx, rmKey, fbEx, hget, hexp]

/-- Claim C7: in fallback mode, after a key is set with a positive TTL, a get
strictly after the expiry returns none and physically removes the entry, and
an exists likewise returns false and removes it; more generally any entry
whose stored expiry lies in the past is never returned by get or exists and
is deleted by the read that touches it. -/
theorem lazy_expiration (rb : RemoteBackend) (st : RedisState) (key value : String)
    (t now0 now1 : Int) (hav : st.available = false)
    (h0 : 0 ≤ now0) (ht : 0 < t) (h1 : now0 + t < now1) :
    ∃ st1, rmSet rb now0 st key value (some t) = Except.ok st1 ∧
      rmGet rb now1 st1 key =
        Except.ok (none, ⟨false, st.pfx, alistDel st1.store (st.pfx ++ key)⟩) ∧
      rmEx rb now1 st1 key =
        Except.ok (false, ⟨false, st.pfx, alistDel st1.store (st.pfx ++ key)⟩) ∧
      alistGet (alistDel st1.store (st.pfx ++ key)) (st.pfx ++ key) = none ∧
      (∀ st2 e2, st2.available = false →
        alistGet st2.store (st2.pfx ++ key) = some e2 →
        isExpired now1 e2.expire = true →
        rmGet rb now1 st2 key =
          Except.ok (none, ⟨false, st2.pfx, alistDel st2.store (st2.pfx ++ key)⟩) ∧
        rmEx rb now1 st2 key =
          Except.ok (false, ⟨false, st2.pfx, alistDel st2.store (st2.pfx ++ key)⟩)) := by
  obtain ⟨av, px, sto⟩ := st
  change av = false at hav
  subst hav
  have ht0 : t ≠ 0 := by omega
  have hea : expireAt now0 (some t) = some (now0 + t) := by simp [expireAt, ht0]
  have hexp : isExpired now1 (some (now0 + t)) = true := by
    have hne : ¬ (now0 + t = 0) := by omega
    have hgt : now1 > now0 + t := h1
    simp [isExpired, hne, hgt]
  refine ⟨⟨false, px, alistSet sto (px ++ key) ⟨value, some (now0 + t)⟩⟩,
    ?_, ?_, ?_, ?_, ?_⟩
  · simp [rmSet, rmKey, fbSet, hea]
  · exact rmGet_expired rb now1 _ key ⟨value, some (now0 + t)⟩ rfl
      (alistGet_alistSet_self sto (px ++ key) ⟨value, some (now0 + t)⟩) hexp
  · exact rmEx_expired rb now1 _ key ⟨value, some (now0 + t)⟩ rfl
      (alistGet_alistSet_self sto (px ++ key) ⟨value, some (now0 + t)⟩) hexp
  · exact alistGet_alistDel_self _ _
  · intro st2 e2 hav2 hget2 hexp2
    exact ⟨rmGet_expired rb now1 st2 key e2 hav2 hget2 hexp2,
      rmEx_expired rb now1 st2 key e2 hav2 hget2 hexp2⟩

theorem lazy_expiration_witness :
    ∃ st1, rmSet rbFail 100 ⟨false, "veka:", []⟩ "k" "v" (some 5) = Except.ok st1 ∧
      rmGet rbFail 106 st1 "k" =
        Except.ok (none, ⟨false, "veka:", alistDel st1.store ("veka:" ++ "k")⟩) ∧
      rmEx rbFail 106 st1 "k" =
        Except.ok (false, ⟨false, "veka:", alistDel st1.store ("veka:" ++ "k")⟩) ∧
      alistGet (alistDel st1.store ("veka:" ++ "k")) ("veka:" ++ "k") = none ∧
      (∀ st2 e2, st2.available = false →
        alistGet st2.store (st2.pfx ++ "k") = some e2 →
        isExpired 106 e2.expire = true →
        rmGet rbFail 106 st2 "k" =
          Except.ok (none, ⟨false, st2.pfx, alistDel st2.store (st2.pfx ++ "k")⟩) ∧
        rmEx rbFail 106 st2 "k" =
          Except.ok (false, ⟨false, st2.pfx, alistDel st2.store (st2.pfx ++ "k")⟩)) :=
  lazy_expiration rbFail ⟨false, "veka:", []⟩ "k" "v" 5 100 106 rfl
    (by decide) (by decide) (by decide)

/-- Claim C6 counterexample: in the fallback store an increment of a key whose
TTL has already expired does not treat the key as absent: at time 20 the
entry at key k expired at time 10, yet increment parses the stale value 5 and
returns 6, keeping the stale expiry, instead of yielding 1. -/
theorem increment_expired_not_reset :
    isExpired 20 (some 10) = true ∧
    rmIncrement rbFail 20 ⟨false, "", [("k", ⟨"5", some 10⟩)]⟩ "k" =
      Except.ok (6, ⟨false, "", [("k", ⟨"6", some 10⟩)]⟩) :=
  ⟨rfl, rfl⟩

/-- Claim C6 amended: fallback increment on an absent key initializes the
value to 0 before adding, so it returns 1; but it performs no expiration
check at all: on any present key it parses the stored value v and returns
v + 1, preserving the stored expiry even when that expiry is already past. -/
theorem increment_contract (rb : RemoteBackend) (now : Int) (st : RedisState)
    (key : String) (hav : st.available = false) :
    (alistGet st.store (st.pfx ++ key) = none →
      rmIncrement rb now st key =
        Except.ok (1, ⟨false, st.pfx,
          alistSet st.store (st.pfx ++ key) ⟨"1", none⟩⟩)) ∧
    (∀ e v, alistGet st.store (st.pfx ++ key) = some e → pyInt e.value = some v →
      rmIncrement rb now st key =
        Except.ok (v + 1, ⟨false, st.pfx,
          alistSet st.store (st.pfx ++ key) ⟨toString (v + 1), e.expire⟩⟩)) := by
  obtain ⟨av, px, sto⟩ := st
  change av = false at hav
  subst hav
  constructor
  · intro hget
    change alistGet sto (px ++ key) = none at hget
    have hp : pyInt "0" = some 0 := rfl
    have hts : toString (1 : Int) = "1" := rfl
    simp [rmIncrement, rmKey, fbIncrement, hget, hp, hts]
  · intro e v hget hpv
    change alistGet sto (px ++ key) = some e at hget
    simp [rmIncrement, rmKey, fbIncrement, hget, hpv]

theorem increment_contract_witness :
    rmIncrement rbFail 0 ⟨false, "veka:", []⟩ "c" =
      Except.ok (1, ⟨false, "veka:", [("veka:c", ⟨"1", none⟩)]⟩) :=
  (increment_contract rbFail 0 ⟨false, "veka:", []⟩ "c" rfl).1 rfl

/-- Claim C9 counterexample: a set call with an empty key and a negative TTL
is not rejected: in fallback mode it returns normally and silently stores an
already-expired entry under the bare namespace string. -/
theorem set_misuse_not_rejected :
    rmSet rbFail 100 ⟨false, "veka:", []⟩ "" "v" (some (-1)) =
      Except.ok ⟨false, "veka:", [("veka:", ⟨"v", some 99⟩)]⟩ := rfl

/-- Claim C9 amended: the gateway performs no argument validation at the call
boundary: in fallback mode an empty key is accepted and stored under the
namespace alone, and a negative TTL is accepted and stored as an already-past
expiry, making the freshly written entry absent for the very next read. -/
theorem set_misuse_contract (rb : RemoteBackend) (now : Int) (st : RedisState)
    (value : String) (e : Int) (hav : st.available = false) (he : e < 0)
    (hne : now + e ≠ 0) :
    ∃ st1, rmSet rb now st "" value (some e) = Except.ok st1 ∧
      alistGet st1.store (st.pfx ++ "") = some ⟨value, some (now + e)⟩ ∧
      rmGet rb now st1 "" =
        Except.ok (none, ⟨false, st.pfx, alistDel st1.store (st.pfx ++ "")⟩) := by
  obtain ⟨av, px, sto⟩ := st
  change av = false at hav
  subst hav
  have he0 : e ≠ 0 := by omega
  have hea : expireAt now (some e) = some (now + e) := by simp [expireAt, he0]
  have hexp : isExpired now (some (now + e)) = true := by
    have hgt : now > now + e := by omega
    simp [isExpired, hne, hgt]
  refine ⟨⟨false, px, alistSet sto (px ++ "") ⟨value, some (now + e)⟩⟩, ?_, ?_, ?_⟩
  · simp [rmSet, rmKey, fbSet, hea]
  · exact alistGet_alistSet_self sto (px ++ "") ⟨value, some (now + e)⟩
  · exact rmGet_expired rb now _ "" ⟨value, some (now + e)⟩ rfl
      (alistGet_alistSet_self sto (px ++ "") ⟨value, some (now + e)⟩) hexp

theorem set_misuse_contract_witness :
    ∃ st1, rmSet rbFail 100 ⟨false, "veka:", []⟩ "" "v" (some (-1)) = Except.ok st1 ∧
      alistGet st1.store ("veka:" ++ "") = some ⟨"v", some 99⟩ ∧
      rmGet rbFail 100 st1 "" =
        Except.ok (none, ⟨false, "veka:", alistDel st1.store ("veka:" ++ "")⟩) :=
  set_misuse_contract rbFail 100 ⟨false, "veka:", []⟩ "v" (-1) rfl
    (by decide) (by decide)

theorem runOp_unavailable (rb : RemoteBackend) (st : RedisState) (p : Int × CacheOp)
    (hav : st.available = false) :
    (∀ rb', runOp rb st p = runOp rb' st p) ∧
    (∀ r st', runOp rb st p = Except.ok (r, st') → st'.available = false) := by
  obtain ⟨av, px, sto⟩ := st
  change av = false at hav
  subst hav
  obtain ⟨now, op⟩ := p
  cases op with
  | opSet k v e =>
      refine ⟨fun rb' => rfl, fun r st' h => ?_⟩
      simp [runOp, rmSet, rmKey] at h
      obtain ⟨h1, h2⟩ := h
      subst h2
      rfl
  | opGet k =>
      refine ⟨fun rb' => rfl, fun r st' h => ?_⟩
      simp [runOp, rmGet, rmKey] at h
      obtain ⟨h1, h2⟩ := h
      subst h2
      rfl
  | opDel k =>
      refine ⟨fun rb' => rfl, fun r st' h => ?_⟩
      simp [runOp, rmDelete, rmKey] at h
      obtain ⟨h1, h2⟩ := h
      subst h2
      rfl
  | opEx k =>
      refine ⟨fun rb' => rfl, fun r st' h => ?_⟩
      simp [runOp, rmEx, rmKey] at h
      obtain ⟨h1, h2⟩ := h
      subst h2
      rfl
  | opIncr k =>
      refine ⟨fun rb' => rfl, fun r st' h => ?_⟩
      simp only [runOp, rmIncrement, rmKey] at h
      cases hinc : fbIncrement sto (px ++ k) with
      | none => simp [hinc] at h
      | some q =>
          obtain ⟨v, s2⟩ := q
          simp [hinc] at h
          obtain ⟨h1, h2⟩ := h
          subst h2
          rfl

/-- Claim C1 counterexample: with the remote backend marked available but its
call raising, a data operation propagates the failure to the caller instead
of degrading this call to the fallback store, so the run differs from the
all-fallback run on the same operations. -/
theorem remote_failure_propagates :
    runOps rbFail ⟨true, "veka:", []⟩ [(0, CacheOp.opGet "k")] = Except.error () ∧
    runOps rbFail ⟨false, "veka:", []⟩ [(0, CacheOp.opGet "k")] =
      Except.ok ([OpResult.value none], ⟨false, "veka:", []⟩) ∧
    runOps rbFail ⟨true, "veka:", []⟩ [(0, CacheOp.opGet "k")] ≠
      runOps rbFail ⟨false, "veka:", []⟩ [(0, CacheOp.opGet "k")] :=
  ⟨rfl, rfl, fun h => Except.noConfusion h⟩

/-- Claim C1 amended: the fallback store is engaged only when the remote
backend was unavailable at connect time; in that mode every sequence of data
operations is insensitive to the remote backend's behavior, so its results
equal those of an all-fallback run. A remote exception raised mid-operation
while the backend is marked available, however, propagates to the caller. -/
theorem fallback_transparency (rb rb' : RemoteBackend) (st : RedisState)
    (ops : List (Int × CacheOp)) (hav : st.available = false) :
    runOps rb st ops = runOps rb' st ops := by
  induction ops generalizing st with
  | nil => rfl
  | cons p rest ih =>
      have h := runOp_unavailable rb st p hav
      simp only [runOps]
      rw [← h.1 rb']
      cases hop : runOp rb st p with
      | error e => rfl
      | ok pr =>
          obtain ⟨r, st'⟩ := pr
          dsimp only
          rw [ih st' (h.2 r st' hop)]

theorem fallback_transparency_witness :
    runOps rbFail ⟨false, "veka:", []⟩
        [(0, CacheOp.opSet "k" "v" (some 5)), (1, CacheOp.opGet "k"),
         (2, CacheOp.opEx "k"), (3, CacheOp.opIncr "n"),
         (4, CacheOp.opDel "k"), (6, CacheOp.opGet "k")] =
      runOps rbOk ⟨false, "veka:", []⟩
        [(0, CacheOp.opSet "k" "v" (some 5)), (1, CacheOp.opGet "k"),
         (2, CacheOp.opEx "k"), (3, CacheOp.opIncr "n"),
         (4, CacheOp.opDel "k"), (6, CacheOp.opGet "k")] :=
  fallback_transparency rbFail rbOk ⟨false, "veka:", []⟩
    [(0, CacheOp.opSet "k" "v" (some 5)), (1, CacheOp.opGet "k"),
     (2, CacheOp.opEx "k"), (3, CacheOp.opIncr "n"),
     (4, CacheOp.opDel "k"), (6, CacheOp.opGet "k")] rfl

/-- Claim C8: connect is total in the embedding because the except-branch
catches any exception of the connection attempt or the ping probe; the
availability flag ends true exactly when both steps succeeded, is false
whenever the try-block raised, and the rest of the state is untouched. -/
theorem connect_contract (o : ConnectOutcome) (st : RedisState) :
    ((connect o st).available = true ↔ o = ConnectOutcome.success) ∧
    (∀ e, connectTry o st = Except.error e → (connect o st).available = false) ∧
    (connect o st).store = st.store ∧ (connect o st).pfx = st.pfx := by
  cases o <;> simp [connect, connectTry]

theorem connect_contract_witness :
    (connect ConnectOutcome.pingRaises ⟨true, "veka:", []⟩).available = false :=
  (connect_contract ConnectOutcome.pingRaises ⟨true, "veka:", []⟩).2.1 () rfl

theorem getUsedInvite_fst (cached current : List (String × Nat)) :
    (getUsedInvite cached current).1 = findUsedInvite cached current := by
  cases h : findUsedInvite cached current <;> simp [getUsedInvite, h]

theorem findUsedInvite_eq_find (cached current : List (String × Nat)) :
    findUsedInvite cached current =
      current.find? fun p =>
        match alistGet cached p.1 with
        | some cu => decide (cu < p.2)
        | none => false := by
  induction current with
  | nil => rfl
  | cons p rest ih =>
      obtain ⟨code, uses⟩ := p
      cases hg : alistGet cached code with
      | none => simp [findUsedInvite, List.find?_cons, hg, ih]
      | some cu =>
          by_cases hlt : cu < uses
          · simp [findUsedInvite, List.find?_cons, hg, hlt, gt_iff_lt]
          · simp [findUsedInvite, List.find?_cons, hg, hlt, gt_iff_lt, ih]

/-- Claim C4 counterexample: with snapshot A=0, B=0 and a fetched list whose
iteration order is B=1 then A=2, both invites increased and A has the larger
delta; the claim's rule returns A (specAttribution, modelled from the spec),
but the code returns B, the first increased invite in iteration order. -/
theorem attribution_not_largest_delta :
    ((getUsedInvite [("A", 0), ("B", 0)] [("B", 1), ("A", 2)]).1).map Prod.fst =
      some "B" ∧
    specAttribution [("A", 0), ("B", 0)] [("B", 1), ("A", 2)] = some "A" ∧
    ("B" : String) ≠ "A" :=
  ⟨rfl, rfl, by decide⟩

/-- Claim C4 amended: attribution returns the first invite in the fetched
list's iteration order that is present in the snapshot with a strictly larger
use count; the size of the delta plays no role beyond being positive and
there is no lexicographic tie-break. On the claim's concrete instance,
snapshot A=5, B=2 against current A=5, B=3, it does return B. -/
theorem attribution_first_increase :
    (∀ cached current : List (String × Nat),
      (getUsedInvite cached current).1 =
        current.find? fun p =>
          match alistGet cached p.1 with
          | some cu => decide (cu < p.2)
          | none => false) ∧
    (getUsedInvite [("A", 5), ("B", 2)] [("A", 5), ("B", 3)]).1 = some ("B", 3) := by
  refine ⟨fun cached current => ?_, rfl⟩
  rw [getUsedInvite_fst, findUsedInvite_eq_find]

/-- Claim C5 counterexample: when no invite shows an increase, the code
returns without replacing the snapshot: with snapshot A=5, B=2 and a fetched
list containing only A=5 (B was deleted after use), the stored snapshot keeps
the stale B entry and differs from the just-fetched list. -/
theorem snapshot_not_replaced :
    getUsedInvite [("A", 5), ("B", 2)] [("A", 5)] = (none, [("A", 5), ("B", 2)]) ∧
    ([("A", 5), ("B", 2)] : List (String × Nat)) ≠ [("A", 5)] :=
  ⟨rfl, by decide⟩

/-- Claim C5 amended: the stored per-guild snapshot is replaced with the
just-fetched invite list only on the branch that identified a used invite;
on the no-candidate outcome, where attribution is none, the stored snapshot
is left unchanged. -/
theorem snapshot_replacement (cached current : List (String × Nat)) :
    (∀ inv, (getUsedInvite cached current).1 = some inv →
      (getUsedInvite cached current).2 = current) ∧
    ((getUsedInvite cached current).1 = none →
      (getUsedInvite cached current).2 = cached) := by
  cases h : findUsedInvite cached current <;> simp [getUsedInvite, h]

theorem snapshot_replacement_witness :
    (getUsedInvite [("A", 5), ("B", 2)] [("B", 3)]).2 = [("B", 3)] :=
  (snapshot_replacement [("A", 5), ("B", 2)] [("B", 3)]).1 ("B", 3) rfl

end Veka
